import Mathlib

/-!
Verification of the wordfeud Go API client.

The development shallowly embeds the client's pure decision logic:
JSON payloads are modelled by an inductive `JSON` value type (the
semantic content of Go's `encoding/json` representation, with numbers
as exact rationals standing for the `float64` values the library
produces), HTTP responses are modelled by their status code, raw body
text and header list, and each fallible Go function is translated into
a Lean function returning an explicit success / error / panic outcome.
-/

namespace Wordfeud

/-- JSON values as produced by Go's `encoding/json` when decoding into
`any`: `null`, booleans, numbers (`float64`, modelled exactly as
rationals), strings, arrays and objects (field lists in source order;
a duplicated key is resolved by `objGet`, which takes the last
binding, as Go does). -/
inductive JSON where
  | null
  | bool (b : Bool)
  | num (q : ℚ)
  | str (s : String)
  | arr (elems : List JSON)
  | obj (fields : List (String × JSON))
deriving Repr

/-- Last-binding field lookup on a decoded JSON object, matching Go's
`encoding/json` behaviour of letting a later duplicate key overwrite
an earlier one. -/
def objGet (fields : List (String × JSON)) (k : String) : Option JSON :=
  fields.foldl (fun acc f => if f.1 = k then some f.2 else acc) none

/-- JSON whitespace characters. -/
def jsonWs (c : Char) : Bool :=
  c = ' ' || c = '\t' || c = '\n' || c = '\r'

/-- Drop leading JSON whitespace. -/
def skipWs : List Char → List Char
  | [] => []
  | c :: cs => if jsonWs c then skipWs cs else c :: cs

def isDigitC (c : Char) : Bool := '0' ≤ c && c ≤ '9'

/-- The opening curly bracket character (0x7b). -/
def lbraceC : Char := Char.ofNat 123

/-- The closing curly bracket character (0x7d). -/
def rbraceC : Char := Char.ofNat 125

/-- Value of a hexadecimal digit. -/
def hexVal (c : Char) : Option Nat :=
  if '0' ≤ c && c ≤ '9' then some (c.toNat - 48)
  else if 'a' ≤ c && c ≤ 'f' then some (c.toNat - 87)
  else if 'A' ≤ c && c ≤ 'F' then some (c.toNat - 70)
  else none

/-- Translation of a single-character JSON string escape. -/
def escChar (c : Char) : Option Char :=
  if c = '"' then some '"'
  else if c = '\\' then some '\\'
  else if c = '/' then some '/'
  else if c = 'b' then some (Char.ofNat 8)
  else if c = 'f' then some (Char.ofNat 12)
  else if c = 'n' then some '\n'
  else if c = 'r' then some '\r'
  else if c = 't' then some '\t'
  else none

/-- Parse the body of a JSON string after the opening quote, returning
the decoded characters and the input remaining after the closing
quote.  `\uXXXX` escapes decode to the corresponding scalar value
(surrogate-pair recombination is not modelled); unescaped control
characters are rejected, as Go does. -/
def parseStrBody : List Char → Option (List Char × List Char)
  | [] => none
  | c :: cs =>
    if c = '"' then some ([], cs)
    else if c = '\\' then
      match cs with
      | [] => none
      | e :: cs' =>
        if e = 'u' then
          match cs' with
          | h1 :: h2 :: h3 :: h4 :: rest =>
            match hexVal h1, hexVal h2, hexVal h3, hexVal h4 with
            | some v1, some v2, some v3, some v4 =>
              (parseStrBody rest).map
                (fun p => (Char.ofNat (((v1 * 16 + v2) * 16 + v3) * 16 + v4) :: p.1, p.2))
            | _, _, _, _ => none
          | _ => none
        else
          match escChar e with
          | some ch => (parseStrBody cs').map (fun p => (ch :: p.1, p.2))
          | none => none
    else if c.toNat < 32 then none
    else (parseStrBody cs).map (fun p => (c :: p.1, p.2))

/-- Split off a maximal run of decimal digits. -/
def takeDigits : List Char → List Char × List Char
  | [] => ([], [])
  | c :: cs =>
    if isDigitC c then
      let p := takeDigits cs
      (c :: p.1, p.2)
    else ([], c :: cs)

def digitsToNat (ds : List Char) : Nat :=
  ds.foldl (fun a c => a * 10 + (c.toNat - 48)) 0

/-- Parse an optional fractional part onto an integer value. -/
def parseFrac (q : ℚ) : List Char → Option (ℚ × List Char)
  | '.' :: t =>
    let p := takeDigits t
    if p.1 = [] then none
    else some (q + (digitsToNat p.1 : ℚ) / ((10 : ℚ) ^ p.1.length), p.2)
  | cs => some (q, cs)

/-- Parse an optional exponent part onto a value. -/
def parseExp (q : ℚ) : List Char → Option (ℚ × List Char)
  | [] => some (q, [])
  | c :: t =>
    if c = 'e' || c = 'E' then
      let st : Bool × List Char :=
        match t with
        | '+' :: t' => (false, t')
        | '-' :: t' => (true, t')
        | _ => (false, t)
      let p := takeDigits st.2
      if p.1 = [] then none
      else
        let e := digitsToNat p.1
        some ((if st.1 then q / (10 : ℚ) ^ e else q * (10 : ℚ) ^ e), p.2)
    else some (q, c :: t)

/-- Parse a JSON number (sign, integer part without redundant leading
zeros, optional fraction, optional exponent), exactly, as a rational. -/
def parseNum (cs : List Char) : Option (ℚ × List Char) :=
  let sg : Bool × List Char :=
    match cs with
    | '-' :: t => (true, t)
    | _ => (false, cs)
  match sg.2 with
  | [] => none
  | c :: _ =>
    if ¬ isDigitC c then none
    else
      let p := takeDigits sg.2
      if 1 < p.1.length ∧ p.1.head? = some '0' then none
      else
        match parseFrac (digitsToNat p.1 : ℚ) p.2 with
        | none => none
        | some fr =>
          match parseExp fr.1 fr.2 with
          | none => none
          | some ex => some ((if sg.1 then -ex.1 else ex.1), ex.2)

mutual

/-- Fuel-indexed recursive-descent parser for one JSON value. -/
def parseVal : Nat → List Char → Option (JSON × List Char)
  | 0, _ => none
  | fuel + 1, cs =>
    match skipWs cs with
    | [] => none
    | c :: rest =>
      if c = '"' then
        (parseStrBody rest).map (fun p => (.str (String.mk p.1), p.2))
      else if c = 't' then
        match rest with
        | 'r' :: 'u' :: 'e' :: r => some (.bool true, r)
        | _ => none
      else if c = 'f' then
        match rest with
        | 'a' :: 'l' :: 's' :: 'e' :: r => some (.bool false, r)
        | _ => none
      else if c = 'n' then
        match rest with
        | 'u' :: 'l' :: 'l' :: r => some (.null, r)
        | _ => none
      else if c = '[' then
        match skipWs rest with
        | ']' :: r => some (.arr [], r)
        | cs' => (parseArrItems fuel cs').map (fun p => (.arr p.1, p.2))
      else if c = lbraceC then
        match skipWs rest with
        | c' :: r =>
          if c' = rbraceC then some (.obj [], r)
          else (parseObjItems fuel (c' :: r)).map (fun p => (.obj p.1, p.2))
        | [] => none
      else
        (parseNum (c :: rest)).map (fun p => (.num p.1, p.2))

/-- Parse the comma-separated items of a JSON array up to and
including the closing bracket. -/
def parseArrItems : Nat → List Char → Option (List JSON × List Char)
  | 0, _ => none
  | fuel + 1, cs =>
    match parseVal fuel cs with
    | none => none
    | some p =>
      match skipWs p.2 with
      | ',' :: r => (parseArrItems fuel r).map (fun q => (p.1 :: q.1, q.2))
      | ']' :: r => some ([p.1], r)
      | _ => none

/-- Parse the comma-separated members of a JSON object up to and
including the closing bracket. -/
def parseObjItems : Nat → List Char → Option (List (String × JSON) × List Char)
  | 0, _ => none
  | fuel + 1, cs =>
    match skipWs cs with
    | '"' :: r =>
      match parseStrBody r with
      | none => none
      | some kp =>
        match skipWs kp.2 with
        | ':' :: r2 =>
          match parseVal fuel r2 with
          | none => none
          | some vp =>
            match skipWs vp.2 with
            | ',' :: r3 =>
              (parseObjItems fuel r3).map
                (fun q => ((String.mk kp.1, vp.1) :: q.1, q.2))
            | c :: r3 =>
              if c = rbraceC then some ([(String.mk kp.1, vp.1)], r3) else none
            | [] => none
        | _ => none
    | _ => none

end

/-- Model of `json.Unmarshal`'s requirement that the body be a single
JSON value followed only by whitespace. -/
def parseJSONText (s : String) : Option JSON :=
  match parseVal (s.length + 1) s.data with
  | some p => if skipWs p.2 = [] then some p.1 else none
  | none => none

/-! ## Error taxonomy (`convertToSentinel` and the sentinel values) -/

/-- The closed set of recognized remote error types; one constructor
per `Err…` sentinel variable of the source. -/
inductive SentinelKind where
  | accessDenied
  | alreadyExists
  | duplicateInvite
  | gameOver
  | illegalMove
  | illegalTiles
  | illegalUserSelf
  | illegalWord
  | invalidBoardType
  | invalidID
  | invalidRuleset
  | loginRequired
  | notFound
  | notYourTurn
  | unknownEmail
  | userNotFound
  | wrongPassword
deriving DecidableEq, Repr

/-- The `apiError` struct: the decoded `(type, message)` error
descriptor. -/
structure ApiError where
  type : String
  message : String
deriving DecidableEq, Repr

/-- Every error value the client can return, as one closed type:
the sentinel errors, the unrecognized `*apiError` passed through
unchanged, and the `fmt.Errorf` failures of `request`, `roundtrip`
and `extractSessionID` (each constructor carries exactly the data
interpolated into the corresponding format string). -/
inductive ClientError where
  | sentinel (k : SentinelKind)
  | unrecognized (type message : String)
  | statusNoBody (code : Nat)
  | statusWithBody (code : Nat) (body : String)
  | envelopeDecode (code : Nat)
  | errorContentDecode (code : Nat)
  | jsonTypeError
  | contentFieldEmpty
  | contentUnmarshal
  | cookieNotFound
  | sessionIDNotFound
deriving DecidableEq, Repr

/-- Outcome of running a fallible Go function: normal return value,
error return, or run-time panic. -/
inductive GoResult (α : Type) where
  | ok (a : α)
  | fail (e : ClientError)
  | crash
deriving DecidableEq, Repr

/-- The map literal of `convertToSentinel`, from wire string to
sentinel kind. -/
def sentinelMap : List (String × SentinelKind) :=
  [("access_denied", .accessDenied),
   ("already_exists", .alreadyExists),
   ("duplicate_invite", .duplicateInvite),
   ("game_over", .gameOver),
   ("illegal_move", .illegalMove),
   ("illegal_tiles", .illegalTiles),
   ("illegal_user_self", .illegalUserSelf),
   ("illegal_word", .illegalWord),
   ("invalid_board_type", .invalidBoardType),
   ("invalid_id", .invalidID),
   ("invalid_ruleset", .invalidRuleset),
   ("login_required", .loginRequired),
   ("not_found", .notFound),
   ("not_your_turn", .notYourTurn),
   ("unknown_email", .unknownEmail),
   ("user_not_found", .userNotFound),
   ("wrong_password", .wrongPassword)]

/-- `convertToSentinel`: map a decoded error descriptor to its
sentinel error if its type is recognized, otherwise return the
descriptor itself as the error. -/
def convertToSentinel (e : ApiError) : ClientError :=
  match List.lookup e.type sentinelMap with
  | some s => .sentinel s
  | none => .unrecognized e.type e.message

/-! ## The transport layer (`Client.request`) -/

/-- Response headers, as a list of name/value pairs; names are taken
to be in canonical MIME form, and `headerGet` models
`http.Header.Get` (first value for the name, `""` when absent). -/
abbrev Headers := List (String × String)

def headerGet (h : Headers) (k : String) : String :=
  match List.find? (fun p => p.1 == k) h with
  | some p => p.2
  | none => ""

/-- The `response` struct returned by `request`: the raw `content`
payload of the envelope (`none` models a nil `json.RawMessage`) and
the response headers. -/
structure Response where
  content : Option JSON
  header : Headers
deriving Repr

/-- The anonymous envelope struct of `request`
(`status string; content json.RawMessage`). -/
structure Envelope where
  status : String
  content : Option JSON
deriving Repr

/-- Decoding the response body into the envelope struct, given the
body's JSON value: an object contributes its `status` field (which
must be a string when present and non-null) and its raw `content`
field; JSON `null` leaves the struct at its zero value; any other
JSON value is a type error. -/
def parseEnvelope (j : JSON) : Option Envelope :=
  match j with
  | .obj fields =>
    match objGet fields "status" with
    | none => some ⟨"", objGet fields "content"⟩
    | some .null => some ⟨"", objGet fields "content"⟩
    | some (.str s) => some ⟨s, objGet fields "content"⟩
    | some _ => none
  | .null => some ⟨"", none⟩
  | _ => none

/-- Decoding the envelope's `content` into `*apiError`: `null`
decodes to a nil pointer (`some none`); an object decodes its
`type`/`message` string fields (absent or null fields keep the zero
value `""`); any other JSON value is a type error (`none`). -/
def parseApiErrorPtr (j : JSON) : Option (Option ApiError) :=
  match j with
  | .null => some none
  | .obj fields =>
    let tf :=
      match objGet fields "type" with
      | none => some ""
      | some .null => some ""
      | some (.str s) => some s
      | some _ => none
    let mf :=
      match objGet fields "message" with
      | none => some ""
      | some .null => some ""
      | some (.str s) => some s
      | some _ => none
    match tf, mf with
    | some t, some m => some (some ⟨t, m⟩)
    | _, _ => none
  | _ => none

/-- `Client.request`, from the point where the response has been
received and its body read in full: classify the triple of status
code, raw body text and headers.  Branches in source order: the
empty-body rule, the `≥ 500` server-fault rule, envelope decoding,
the `status == "error"` error path (where a nil decoded `*apiError`
makes `convertToSentinel` dereference nil, a panic), and the success
return. -/
def requestModel (code : Nat) (body : String) (hdr : Headers) :
    GoResult Response :=
  if body = "" then
    if code = 200 then .ok ⟨none, hdr⟩ else .fail (.statusNoBody code)
  else if 500 ≤ code then .fail (.statusWithBody code body)
  else
    match parseJSONText body with
    | none => .fail (.envelopeDecode code)
    | some j =>
      match parseEnvelope j with
      | none => .fail (.envelopeDecode code)
      | some env =>
        if env.status = "error" then
          match env.content with
          | none => .fail (.errorContentDecode code)
          | some jc =>
            match parseApiErrorPtr jc with
            | none => .fail (.errorContentDecode code)
            | some none => .crash
            | some (some d) => .fail (convertToSentinel d)
        else .ok ⟨env.content, hdr⟩

/-! ## The generic decode helper (`roundtrip`) -/

/-- `roundtrip`, from the point where `c.request` has produced its
result: propagate failures, fail on a nil `Content`, and otherwise
unmarshal the content into the target shape.  The target-shape
unmarshalling `json.Unmarshal(res.Content, &t)` is abstracted as a
caller-supplied partial decoding function on JSON values. -/
def roundtripModel {C : Type} (decode : JSON → Option C)
    (r : GoResult Response) : GoResult C :=
  match r with
  | .crash => .crash
  | .fail e => .fail e
  | .ok res =>
    match res.content with
    | none => .fail .contentFieldEmpty
    | some j =>
      match decode j with
      | none => .fail .contentUnmarshal
      | some t => .ok t

/-! ## Session extraction (`extractSessionID` and `cookieRegexp`) -/

/-- The literal `sessionid=` of `cookieRegexp`. -/
def sessionidPat : List Char := "sessionid=".data

/-- The lazy capture `(.+?)(?:;|$)` of `cookieRegexp`, starting right
after `sessionid=`: the shortest non-empty run of non-newline
characters followed by `;` or the end of the text.  `.` does not
match a newline, and `$` matches only at the end of the text (RE2
defaults). -/
def findCapture : List Char → Option (List Char)
  | [] => none
  | c :: cs =>
    if c = '\n' then none
    else
      match cs with
      | [] => some [c]
      | c2 :: _ =>
        if c2 = ';' then some [c]
        else (findCapture cs).map (fun v => c :: v)

/-- `cookieRegexp.FindStringSubmatch`: the capture of the leftmost
match, scanning start positions left to right. -/
def findSessionID : List Char → Option (List Char)
  | [] => none
  | c :: cs =>
    if sessionidPat.isPrefixOf (c :: cs) then
      match findCapture (List.drop 10 (c :: cs)) with
      | some v => some v
      | none => findSessionID cs
    else findSessionID cs

/-- `extractSessionID`: read the `Set-Cookie` header, fail when it is
absent (empty), apply the regex, fail when it does not match, and
return the captured `sessionid` value. -/
def extractSessionID (r : Response) : GoResult String :=
  let cookie := headerGet r.header "Set-Cookie"
  if cookie = "" then .fail .cookieNotFound
  else
    match findSessionID cookie.data with
    | some v => .ok (String.mk v)
    | none => .fail .sessionIDNotFound

/-! ## Placements (`Placement`, `Array`, `UnmarshalJSON`,
`uniqueSquares`, the local check of `Client.Move`) -/

/-- A tile placement.  Go `int` columns and rows are modelled as
unbounded integers. -/
structure Placement where
  column : ℤ
  row : ℤ
  letter : String
  blank : Bool

/-- Go's `int(f)` conversion from `float64`: truncation toward zero,
on the exact rational model of the value. -/
def ratTrunc (q : ℚ) : ℤ :=
  if 0 ≤ q then ⌊q⌋ else -⌊-q⌋

/-- `Placement.Array`: the positional `[4]any{Column, Row, Letter,
Blank}` form, at the level of its JSON value (integers become JSON
numbers). -/
def Placement.Array (p : Placement) : List JSON :=
  [.num (p.column : ℚ), .num (p.row : ℚ), .str p.letter, .bool p.blank]

/-- The type assertion `x.(float64)`: the decoded element must be a
JSON number (which `encoding/json` stores as `float64`); anything
else — including the nil obtained from a missing element or JSON
null — panics (`none`). -/
def assertFloat : JSON → Option ℚ
  | .num q => some q
  | _ => none

/-- The type assertion `x.(string)`. -/
def assertString : JSON → Option String
  | .str s => some s
  | _ => none

/-- The type assertion `x.(bool)`. -/
def assertBool : JSON → Option Bool
  | .bool b => some b
  | _ => none

/-- `Placement.UnmarshalJSON`, on the JSON value of the input bytes:
`json.Unmarshal(b, &a)` with `a : [4]any` errors on anything that is
neither an array nor null (null is a decoding no-op), keeps at most
the first four elements of an array (missing ones stay nil, modelled
as JSON null), and the four unchecked type assertions then panic
unless the elements are (number, number, string, bool). -/
def unmarshalPlacement (j : JSON) : GoResult Placement :=
  match j with
  | .arr elems =>
    match assertFloat (elems.getD 0 .null), assertFloat (elems.getD 1 .null),
          assertString (elems.getD 2 .null), assertBool (elems.getD 3 .null) with
    | some c, some r, some s, some b => .ok ⟨ratTrunc c, ratTrunc r, s, b⟩
    | _, _, _, _ => .crash
  | .null => .crash
  | _ => .fail .jsonTypeError

/-- Shape test used to state when `UnmarshalJSON` decodes an array
rather than panicking. -/
def placementShapeOK (elems : List JSON) : Bool :=
  (assertFloat (elems.getD 0 .null)).isSome &&
  (assertFloat (elems.getD 1 .null)).isSome &&
  (assertString (elems.getD 2 .null)).isSome &&
  (assertBool (elems.getD 3 .null)).isSome

/-- The loop of `uniqueSquares`, carrying the `positions` slice. -/
def uniqueSquaresLoop : List Placement → List (ℤ × ℤ) → Bool
  | [], _ => true
  | pl :: rest, positions =>
    if positions.any (fun pos => pl.column == pos.1 && pl.row == pos.2) then false
    else uniqueSquaresLoop rest (positions ++ [(pl.column, pl.row)])

/-- `uniqueSquares`: the `positions` slice is created by
`make([]position, len(placements))`, i.e. it starts holding
`len(placements)` zero-valued `(0, 0)` entries, and each examined
placement is appended to it. -/
def uniqueSquares (placements : List Placement) : Bool :=
  uniqueSquaresLoop placements (List.replicate placements.length (0, 0))

/-- What `Client.Move` decides before any network interaction. -/
inductive MoveAction where
  | localIllegalMove
  | sendMove (payload : List JSON)

/-- The pre-network part of `Client.Move`: when `uniqueSquares`
fails, return `ErrIllegalMove` without contacting the server;
otherwise build the positional payload and proceed to the network
call. -/
def movePrecheck (move : List Placement) : MoveAction :=
  if uniqueSquares move then .sendMove (move.map (fun p => .arr p.Array))
  else .localIllegalMove

/-- Pairwise distinctness of the `(column, row)` pairs of a
placement list (the property `uniqueSquares` is documented to
check). -/
def distinctSquares (l : List Placement) : Prop :=
  (l.map (fun p => (p.column, p.row))).Nodup

instance (l : List Placement) : Decidable (distinctSquares l) := by
  unfold distinctSquares; infer_instance

/-! ## Timestamps (`Timestamp.UnmarshalJSON`) -/

/-- The instant stored in a `Timestamp`: seconds and nanoseconds
since the Unix epoch. -/
structure Timestamp where
  sec : ℤ
  nsec : ℤ
deriving DecidableEq, Repr

/-- `time.Unix(sec, nsec)`: normalize nanoseconds into
`[0, 1e9)` carrying whole seconds, with Go's truncated integer
division. -/
def goTimeUnix (sec nsec : ℤ) : Timestamp :=
  if nsec < 0 ∨ 1000000000 ≤ nsec then
    let n := Int.tdiv nsec 1000000000
    let sec' := sec + n
    let nsec' := nsec - n * 1000000000
    if nsec' < 0 then ⟨sec' - 1, nsec' + 1000000000⟩ else ⟨sec', nsec'⟩
  else ⟨sec, nsec⟩

/-- `Timestamp.UnmarshalJSON`, on the JSON value of the input bytes:
decode a `float64` (a JSON number; null is a decoding no-op leaving
`0`; anything else errors), split it with `math.Modf` into integer
and fractional parts (both truncated toward zero), and build
`time.Unix(int64(sec), int64(dec*1e9))`.  The float64 arithmetic is
modelled exactly on rationals. -/
def unmarshalTimestamp (j : JSON) : Option Timestamp :=
  match j with
  | .num f =>
    let sec := ratTrunc f
    let dec : ℚ := f - (sec : ℚ)
    some (goTimeUnix sec (ratTrunc (dec * 1000000000)))
  | .null => some (goTimeUnix 0 0)
  | _ => none

/-! ## Password hashing (`hashPassword`) and the login/account bodies

`hashPassword` is `hex(sha1(password ++ PasswordSalt))` over the
UTF-8 bytes; SHA-1 is implemented in full so that the digest is a
concrete computable function. -/

/-- UTF-8 encoding of one character, as byte values. -/
def utf8EncodeC (c : Char) : List Nat :=
  let n := c.toNat
  if n < 128 then [n]
  else if n < 2048 then [192 ||| (n >>> 6), 128 ||| (n &&& 63)]
  else if n < 65536 then
    [224 ||| (n >>> 12), 128 ||| ((n >>> 6) &&& 63), 128 ||| (n &&& 63)]
  else
    [240 ||| (n >>> 18), 128 ||| ((n >>> 12) &&& 63),
     128 ||| ((n >>> 6) &&& 63), 128 ||| (n &&& 63)]

/-- The UTF-8 bytes of a string. -/
def strBytes (s : String) : List Nat :=
  s.data.foldr (fun c acc => utf8EncodeC c ++ acc) []

/-- `k`-byte big-endian encoding of a number. -/
def bytesBE : Nat → Nat → List Nat
  | 0, _ => []
  | k + 1, n => bytesBE k (n / 256) ++ [n % 256]

/-- Group bytes into 32-bit big-endian words. -/
def wordsBE : List Nat → List Nat
  | b0 :: b1 :: b2 :: b3 :: rest =>
    (((b0 * 256 + b1) * 256 + b2) * 256 + b3) :: wordsBE rest
  | _ => []

/-- 32-bit left rotation. -/
def rotl32 (n w : Nat) : Nat :=
  ((w <<< n) ||| (w >>> (32 - n))) % 4294967296

/-- SHA-1 message padding: a `0x80` byte, zeros to 56 mod 64, and
the 64-bit big-endian bit length. -/
def sha1Pad (msg : List Nat) : List Nat :=
  msg ++ (128 :: List.replicate ((119 - msg.length % 64) % 64) 0) ++
    bytesBE 8 (8 * msg.length)

/-- Split a byte list into 64-byte chunks (fuel-indexed). -/
def chunks64 : Nat → List Nat → List (List Nat)
  | 0, _ => []
  | _, [] => []
  | fuel + 1, l => l.take 64 :: chunks64 fuel (l.drop 64)

/-- The SHA-1 message-schedule extension from 16 to 80 words. -/
def sha1Extend (ws : List Nat) : List Nat :=
  (List.range 64).foldl
    (fun acc _ =>
      acc ++ [rotl32 1 ((acc.getD (acc.length - 3) 0) ^^^
                        (acc.getD (acc.length - 8) 0) ^^^
                        (acc.getD (acc.length - 14) 0) ^^^
                        (acc.getD (acc.length - 16) 0))])
    ws

/-- One SHA-1 round: the round function and constant depend on the
round index. -/
def sha1Round (st : Nat × Nat × Nat × Nat × Nat) (i w : Nat) :
    Nat × Nat × Nat × Nat × Nat :=
  let a := st.1; let b := st.2.1; let c := st.2.2.1
  let d := st.2.2.2.1; let e := st.2.2.2.2
  let fk : Nat × Nat :=
    if i < 20 then ((b &&& c) ||| ((b ^^^ 4294967295) &&& d), 1518500249)
    else if i < 40 then (b ^^^ c ^^^ d, 1859775393)
    else if i < 60 then ((b &&& c) ||| (b &&& d) ||| (c &&& d), 2400959708)
    else (b ^^^ c ^^^ d, 3395469782)
  ((rotl32 5 a + fk.1 + e + fk.2 + w) % 4294967296, a, rotl32 30 b, c, d)

/-- Compress one 64-byte chunk into the running hash state. -/
def sha1Chunk (h : Nat × Nat × Nat × Nat × Nat) (chunk : List Nat) :
    Nat × Nat × Nat × Nat × Nat :=
  let ws := sha1Extend (wordsBE chunk)
  let st := ws.enum.foldl (fun st p => sha1Round st p.1 p.2) h
  ((h.1 + st.1) % 4294967296,
   (h.2.1 + st.2.1) % 4294967296,
   (h.2.2.1 + st.2.2.1) % 4294967296,
   (h.2.2.2.1 + st.2.2.2.1) % 4294967296,
   (h.2.2.2.2 + st.2.2.2.2) % 4294967296)

/-- The SHA-1 digest of a byte message, as five 32-bit words. -/
def sha1 (msg : List Nat) : Nat × Nat × Nat × Nat × Nat :=
  let padded := sha1Pad msg
  (chunks64 padded.length padded).foldl sha1Chunk
    (1732584193, 4023233417, 2562383102, 271733878, 3285377520)

/-- Lower-case hexadecimal digit. -/
def hexDigit (n : Nat) : Char :=
  "0123456789abcdef".data.getD n '0'

/-- A 32-bit word as eight hexadecimal characters. -/
def wordHexChars (w : Nat) : List Char :=
  [28, 24, 20, 16, 12, 8, 4, 0].map (fun sh => hexDigit ((w >>> sh) &&& 15))

/-- `hex.EncodeToString(h.Sum(nil))`: the digest words in order, each
as eight hex characters. -/
def sha1Hex (msg : List Nat) : String :=
  let d := sha1 msg
  String.mk (wordHexChars d.1 ++ wordHexChars d.2.1 ++ wordHexChars d.2.2.1 ++
    wordHexChars d.2.2.2.1 ++ wordHexChars d.2.2.2.2)

/-- `PasswordSalt`, appended to every password before hashing. -/
def PasswordSalt : String := "JarJarBinks9"

/-- `hashPassword`: a single SHA-1 round over the password followed
by the fixed salt, hex-encoded. -/
def hashPassword (password : String) : String :=
  sha1Hex (strBytes password ++ strBytes PasswordSalt)

/-- The request body `Client.CreateAccount` marshals. -/
def createAccountBody (username email password : String) : JSON :=
  .obj [("username", .str username), ("email", .str email),
        ("password", .str (hashPassword password))]

/-- The request body `Client.LoginWithEmail` marshals. -/
def loginWithEmailBody (email password : String) : JSON :=
  .obj [("email", .str email), ("password", .str (hashPassword password))]

/-- The request body `Client.LoginWithID` marshals (`UserID` is an
integer). -/
def loginWithIDBody (id : ℤ) (password : String) : JSON :=
  .obj [("id", .num (id : ℚ)), ("password", .str (hashPassword password))]

/-- The request body `Client.ChangePassword` marshals. -/
def changePasswordBody (newPassword : String) : JSON :=
  .obj [("password", .str (hashPassword newPassword))]

/-- The string leaves of a JSON value's top-level object fields,
used to state that a plaintext password is not among the transmitted
strings. -/
def topStringFields (j : JSON) : List String :=
  match j with
  | .obj fields =>
    fields.foldr
      (fun f acc => match f.2 with | .str s => s :: acc | _ => acc) []
  | _ => []

/-- Field lookup on a JSON value that is an object. -/
def jsonObjGet (j : JSON) (k : String) : Option JSON :=
  match j with
  | .obj fields => objGet fields k
  | _ => none

/-- `statusIndicatesSuccess`, written from the specification's words
("the status code indicates success") with their standard HTTP
meaning, for comparison against what the code actually checks. -/
def statusIndicatesSuccess (code : Nat) : Bool :=
  200 ≤ code && code < 300

/-- Whether `pat` occurs as a contiguous subsequence. -/
def containsPat (pat : List Char) : List Char → Bool
  | [] => pat.isEmpty
  | c :: cs => pat.isPrefixOf (c :: cs) || containsPat pat cs

/-! ## Helper lemmas -/

theorem ratTrunc_intCast (n : ℤ) : ratTrunc (n : ℚ) = n := by
  unfold ratTrunc
  split
  · exact Int.floor_intCast n
  · rw [← Int.cast_neg, Int.floor_intCast]
    exact neg_neg n

theorem hashPassword_length (s : String) : (hashPassword s).length = 40 := by
  unfold hashPassword sha1Hex
  simp [String.length, wordHexChars]

/-! ## Claims -/

/-- C1: the claim says every placement list with pairwise-distinct
`(column, row)` pairs passes `uniqueSquares` and `Move` proceeds to
the network call.  The code violates this: the `positions` slice is
created with `len(placements)` zero-valued `(0, 0)` entries, so the
single — trivially pairwise-distinct — placement at `(0, 0)` is
rejected with the local illegal-move error.  (The other half of the
claim is visible in the last two conjuncts: an actual duplicate is
also rejected locally, and a distinct list away from `(0, 0)`
proceeds to the network call.) -/
theorem C1_uniqueSquares_rejects_origin :
    distinctSquares [⟨0, 0, "A", false⟩] ∧
    uniqueSquares [⟨0, 0, "A", false⟩] = false ∧
    movePrecheck [⟨0, 0, "A", false⟩] = .localIllegalMove ∧
    uniqueSquares [⟨7, 5, "H", false⟩, ⟨7, 5, "E", false⟩] = false ∧
    movePrecheck [⟨7, 5, "H", false⟩, ⟨7, 5, "E", false⟩] = .localIllegalMove ∧
    movePrecheck [⟨7, 5, "H", false⟩, ⟨7, 6, "E", false⟩] =
      .sendMove [.arr (Placement.Array ⟨7, 5, "H", false⟩),
                 .arr (Placement.Array ⟨7, 6, "E", false⟩)] :=
  ⟨by decide, rfl, rfl, rfl, rfl, rfl⟩

/-- C3: encoding a placement to its positional 4-element array form
and decoding it back through `Placement.UnmarshalJSON` restores the
placement, for columns and rows in `[0, 14]`, every letter string and
both blank flags.  (The serialization of the array form to JSON text
and its re-parsing by `encoding/json` are modelled at the level of
the JSON value.) -/
theorem C3_placement_roundtrip (c r : ℤ) (s : String) (b : Bool)
    (hc0 : 0 ≤ c) (hc14 : c ≤ 14) (hr0 : 0 ≤ r) (hr14 : r ≤ 14) :
    unmarshalPlacement (.arr (Placement.Array ⟨c, r, s, b⟩)) = .ok ⟨c, r, s, b⟩ := by
  simp [unmarshalPlacement, Placement.Array, assertFloat, assertString, assertBool,
        List.getD, ratTrunc_intCast]

theorem C3_placement_roundtrip_witness :
    unmarshalPlacement (.arr (Placement.Array ⟨7, 5, "H", false⟩)) =
      .ok ⟨7, 5, "H", false⟩ :=
  C3_placement_roundtrip 7 5 "H" false (by norm_num) (by norm_num)
    (by norm_num) (by norm_num)

/-- C4 (counterexample): the claim reads "if the HTTP status code
indicates success, request returns a success whose content is empty".
204 No Content is a success status code in the standard HTTP sense,
yet `request` — which compares against 200 exactly — fails on an
empty 204 response. -/
theorem C4_empty_body_counterexample :
    statusIndicatesSuccess 204 = true ∧
    requestModel 204 "" [] = .fail (.statusNoBody 204) :=
  ⟨rfl, rfl⟩

/-- C4 (amended): for an empty body, `request` succeeds with empty
content exactly when the status code is 200, and otherwise fails
with a status-code error carrying no body text and involving no JSON
parsing. -/
theorem C4_empty_body (code : Nat) (hdr : Headers) :
    (code = 200 → requestModel code "" hdr = .ok ⟨none, hdr⟩) ∧
    (code ≠ 200 → requestModel code "" hdr = .fail (.statusNoBody code)) := by
  constructor <;> intro h <;> simp [requestModel, h]

theorem C4_empty_body_witness :
    requestModel 200 "" [] = .ok ⟨none, []⟩ ∧
    requestModel 404 "" [] = .fail (.statusNoBody 404) :=
  ⟨(C4_empty_body 200 []).1 rfl, (C4_empty_body 404 []).2 (by norm_num)⟩

/-- C5: for every response with status code ≥ 500, `request` fails
with an error carrying the status code and the raw body text, and no
JSON parsing of the body is attempted (when the body happens to be
empty the earlier empty-body branch fires first, still failing with
the status code and, vacuously, the empty body). -/
theorem C5_server_fault (code : Nat) (body : String) (hdr : Headers)
    (h : 500 ≤ code) :
    (body ≠ "" → requestModel code body hdr = .fail (.statusWithBody code body)) ∧
    (body = "" → requestModel code body hdr = .fail (.statusNoBody code)) := by
  constructor <;> intro hb
  · simp [requestModel, hb, h]
  · subst hb
    have h200 : ¬ code = 200 := by omega
    simp [requestModel, h200]

theorem C5_server_fault_witness :
    requestModel 503 "<html>oops</html>" [] =
      .fail (.statusWithBody 503 "<html>oops</html>") :=
  (C5_server_fault 503 "<html>oops</html>" [] (by norm_num)).1 (by decide)

/-- C7: when the transport call has succeeded, `roundtrip` fails if
the returned content is nil, surfaces a decode failure of the content
as a decode error, and otherwise returns the decoded value. -/
theorem C7_roundtrip_decode {C : Type} (decode : JSON → Option C)
    (r : GoResult Response) (res : Response) (h : r = .ok res) :
    (res.content = none → roundtripModel decode r = .fail .contentFieldEmpty) ∧
    (∀ j, res.content = some j → decode j = none →
      roundtripModel decode r = .fail .contentUnmarshal) ∧
    (∀ j t, res.content = some j → decode j = some t →
      roundtripModel decode r = .ok t) := by
  subst h
  refine ⟨?_, ?_, ?_⟩ <;> intros <;> simp [roundtripModel, *]

theorem C7_roundtrip_decode_witness :
    roundtripModel assertBool (.ok ⟨none, []⟩) = .fail .contentFieldEmpty ∧
    roundtripModel assertBool (.ok ⟨some (.str "x"), []⟩) = .fail .contentUnmarshal ∧
    roundtripModel assertBool (.ok ⟨some (.bool true), []⟩) = .ok true :=
  ⟨(C7_roundtrip_decode assertBool _ _ rfl).1 rfl,
   (C7_roundtrip_decode assertBool _ _ rfl).2.1 _ rfl rfl,
   (C7_roundtrip_decode assertBool _ _ rfl).2.2 _ _ rfl rfl⟩

/-- C10 (counterexample): `Placement.UnmarshalJSON` is not total
over JSON inputs — on the valid JSON 4-element array
`[true, true, true, true]`, whose elements are not of the shape
(number, number, string, bool), the unchecked type assertions panic
instead of returning an error. -/
theorem C10_unmarshal_counterexample :
    unmarshalPlacement (.arr [.bool true, .bool true, .bool true, .bool true]) =
      .crash :=
  rfl

/-- C10 (amended): `Placement.UnmarshalJSON` decodes every JSON
array whose (null-padded) first four elements are of the shape
(number, number, string, bool); it returns an error for every input
that is neither an array nor null; and it panics — rather than
returning an error — on JSON null and on arrays whose elements are
not of that shape. -/
theorem C10_unmarshal_totality (j : JSON) :
    (∀ elems, j = .arr elems → placementShapeOK elems = true →
      ∃ p, unmarshalPlacement j = .ok p) ∧
    (∀ elems, j = .arr elems → placementShapeOK elems = false →
      unmarshalPlacement j = .crash) ∧
    (j = .null → unmarshalPlacement j = .crash) ∧
    ((∀ elems, j ≠ .arr elems) → j ≠ .null →
      unmarshalPlacement j = .fail .jsonTypeError) := by
  refine ⟨?_, ?_, ?_, ?_⟩
  · rintro elems rfl hshape
    rcases h0 : assertFloat (elems.getD 0 .null) with _ | c <;>
      rcases h1 : assertFloat (elems.getD 1 .null) with _ | r <;>
      rcases h2 : assertString (elems.getD 2 .null) with _ | s <;>
      rcases h3 : assertBool (elems.getD 3 .null) with _ | b <;>
      simp_all [unmarshalPlacement, placementShapeOK]
  · rintro elems rfl hshape
    rcases h0 : assertFloat (elems.getD 0 .null) with _ | c <;>
      rcases h1 : assertFloat (elems.getD 1 .null) with _ | r <;>
      rcases h2 : assertString (elems.getD 2 .null) with _ | s <;>
      rcases h3 : assertBool (elems.getD 3 .null) with _ | b <;>
      simp_all [unmarshalPlacement, placementShapeOK]
  · rintro rfl; rfl
  · intro harr hnull
    cases j with
    | null => exact absurd rfl hnull
    | arr elems => exact absurd rfl (harr elems)
    | _ => rfl

theorem C10_unmarshal_totality_witness :
    (∃ p, unmarshalPlacement (.arr [.num 7, .num 5, .str "H", .bool false]) =
      .ok p) ∧
    unmarshalPlacement (.str "x") = .fail .jsonTypeError :=
  ⟨(C10_unmarshal_totality _).1 [.num 7, .num 5, .str "H", .bool false] rfl rfl,
   (C10_unmarshal_totality (.str "x")).2.2.2
     (fun _ h => JSON.noConfusion h) (fun h => JSON.noConfusion h)⟩

/-- C2: whenever the body parses as an envelope whose status is
`"error"` and whose content decodes to a `(type, message)`
descriptor, and the status code is below 500, `request` fails with
exactly `convertToSentinel` of the descriptor — for every status
code, 200 included, so the failure is determined solely by the
descriptor.  The remaining conjuncts pin down `convertToSentinel`:
a recognized type (e.g. `"not_your_turn"`) maps to its sentinel, the
17 map entries have pairwise-distinct keys and pairwise-distinct
sentinels, and an unrecognized type passes through as an opaque
error carrying the original type and message. -/
theorem C2_error_envelope_classification :
    (∀ (code : Nat) (body : String) (hdr : Headers) (j : JSON)
      (env : Envelope) (jc : JSON) (d : ApiError),
      code < 500 →
      parseJSONText body = some j →
      parseEnvelope j = some env →
      env.status = "error" →
      env.content = some jc →
      parseApiErrorPtr jc = some (some d) →
      requestModel code body hdr = .fail (convertToSentinel d)) ∧
    (∀ m, convertToSentinel ⟨"not_your_turn", m⟩ = .sentinel .notYourTurn) ∧
    (∀ t m k, List.lookup t sentinelMap = some k →
      convertToSentinel ⟨t, m⟩ = .sentinel k) ∧
    (∀ t m, List.lookup t sentinelMap = none →
      convertToSentinel ⟨t, m⟩ = .unrecognized t m) ∧
    (sentinelMap.map Prod.fst).Nodup ∧
    (sentinelMap.map Prod.snd).Nodup := by
  refine ⟨?_, fun m => rfl, ?_, ?_, by decide, by decide⟩
  · intro code body hdr j env jc d hcode hpj hpe hst hc hpa
    have hb : body ≠ "" := by
      intro h
      rw [h] at hpj
      exact Option.noConfusion (show (none : Option JSON) = some j from hpj)
    have h500 : ¬ 500 ≤ code := by omega
    simp [requestModel, hb, h500, hpj, hpe, hst, hc, hpa]
  · intro t m k h
    simp [convertToSentinel, h]
  · intro t m h
    simp [convertToSentinel, h]

theorem C2_error_envelope_classification_witness :
    requestModel 200
      "\x7b\"status\": \"error\", \"content\": \x7b\"type\": \"not_your_turn\", \"message\": \"x\"\x7d\x7d"
      [] = .fail (.sentinel .notYourTurn) ∧
    requestModel 400
      "\x7b\"status\": \"error\", \"content\": \x7b\"type\": \"zzz\", \"message\": \"m\"\x7d\x7d"
      [] = .fail (.unrecognized "zzz" "m") :=
  ⟨C2_error_envelope_classification.1 200 _ []
      (.obj [("status", .str "error"),
             ("content", .obj [("type", .str "not_your_turn"), ("message", .str "x")])])
      ⟨"error", some (.obj [("type", .str "not_your_turn"), ("message", .str "x")])⟩
      (.obj [("type", .str "not_your_turn"), ("message", .str "x")])
      ⟨"not_your_turn", "x"⟩
      (by norm_num) rfl rfl rfl rfl rfl,
   C2_error_envelope_classification.1 400 _ []
      (.obj [("status", .str "error"),
             ("content", .obj [("type", .str "zzz"), ("message", .str "m")])])
      ⟨"error", some (.obj [("type", .str "zzz"), ("message", .str "m")])⟩
      (.obj [("type", .str "zzz"), ("message", .str "m")])
      ⟨"zzz", "m"⟩
      (by norm_num) rfl rfl rfl rfl rfl⟩

/-- C8: the JSON timestamp value `1609459200.5` decodes to the
instant at epoch-seconds 1609459200 plus exactly 500,000,000
nanoseconds; and in general, for every non-negative
fractional-seconds value, the integer part becomes the whole seconds
and the fractional part becomes the nanoseconds. -/
theorem C8_timestamp_decode :
    unmarshalTimestamp (.num ((3218918401 : ℚ) / 2)) =
      some ⟨1609459200, 500000000⟩ ∧
    (∀ q : ℚ, 0 ≤ q → unmarshalTimestamp (.num q) =
      some ⟨⌊q⌋, ⌊(q - ⌊q⌋) * 1000000000⌋⟩) := by
  have gen : ∀ q : ℚ, 0 ≤ q → unmarshalTimestamp (.num q) =
      some ⟨⌊q⌋, ⌊(q - ⌊q⌋) * 1000000000⌋⟩ := by
    intro q hq
    have h1 : ratTrunc q = ⌊q⌋ := by simp [ratTrunc, hq]
    have hfr : (0 : ℚ) ≤ q - ⌊q⌋ := sub_nonneg.2 (Int.floor_le q)
    have h2 : (0 : ℚ) ≤ (q - ⌊q⌋) * 1000000000 :=
      mul_nonneg hfr (by norm_num)
    have h3 : ratTrunc ((q - ⌊q⌋) * 1000000000) = ⌊(q - ⌊q⌋) * 1000000000⌋ := by
      simp [ratTrunc, h2]
    have h4 : 0 ≤ ⌊(q - ⌊q⌋) * 1000000000⌋ := Int.floor_nonneg.2 h2
    have h5 : ⌊(q - ⌊q⌋) * 1000000000⌋ < 1000000000 := by
      have hlt : (q - ⌊q⌋) * 1000000000 < 1000000000 := by
        have hf1 : q - ⌊q⌋ < 1 := by
          have := Int.lt_floor_add_one q
          linarith
        calc (q - ⌊q⌋) * 1000000000 < 1 * 1000000000 :=
              mul_lt_mul_of_pos_right hf1 (by norm_num)
          _ = 1000000000 := one_mul _
      exact_mod_cast Int.floor_lt.2 (by exact_mod_cast hlt)
    have hcond : ¬ (⌊(q - ⌊q⌋) * 1000000000⌋ < 0 ∨
        1000000000 ≤ ⌊(q - ⌊q⌋) * 1000000000⌋) := by omega
    simp only [unmarshalTimestamp, h1, h3, goTimeUnix, if_neg hcond]
  refine ⟨?_, gen⟩
  rw [gen _ (by norm_num)]
  simp only [Option.some.injEq, Timestamp.mk.injEq]
  constructor <;> norm_num

theorem C8_timestamp_decode_witness :
    unmarshalTimestamp (.num ((1 : ℚ) / 2)) = some ⟨0, 500000000⟩ := by
  rw [C8_timestamp_decode.2 ((1 : ℚ) / 2) (by norm_num)]
  simp only [Option.some.injEq, Timestamp.mk.injEq]
  constructor <;> norm_num

/-- The lazy capture accepts exactly the semicolon-and-newline-free
non-empty run before a `;` or the end of the text. -/
theorem findCapture_append (v r : List Char) (hv : v ≠ []) (hn : '\n' ∉ v)
    (hs : ';' ∉ v) (hr : r = [] ∨ ∃ r', r = ';' :: r') :
    findCapture (v ++ r) = some v := by
  induction v with
  | nil => exact absurd rfl hv
  | cons c cs ih =>
    have hcn : c ≠ '\n' := fun h => hn (h ▸ List.mem_cons_self c cs)
    cases cs with
    | nil =>
      rcases hr with h | ⟨r', h⟩ <;> subst h <;> simp [findCapture, hcn]
    | cons c2 cs' =>
      have hc2 : c2 ≠ ';' := fun h => hs (by simp [h])
      have ihh : findCapture ((c2 :: cs') ++ r) = some (c2 :: cs') :=
        ih (by simp) (fun h => hn (List.mem_cons_of_mem _ h))
          (fun h => hs (List.mem_cons_of_mem _ h))
      simp only [List.cons_append] at ihh ⊢
      have hunf : findCapture (c :: c2 :: (cs' ++ r)) =
          if c = '\n' then none
          else if c2 = ';' then some [c]
          else (findCapture (c2 :: (cs' ++ r))).map (fun v => c :: v) := rfl
      rw [hunf, if_neg hcn, if_neg hc2, ihh]
      rfl

/-- Scanning skips a prefix that cannot start a match. -/
theorem findSessionID_skip (p rest : List Char) (hp : 's' ∉ p) :
    findSessionID (p ++ rest) = findSessionID rest := by
  induction p with
  | nil => rfl
  | cons a p' ih =>
    have ha : a ≠ 's' := fun h => hp (h ▸ List.mem_cons_self a p')
    have hb : (('s' : Char) == a) = false :=
      beq_eq_false_iff_ne.mpr (fun h => ha h.symm)
    have hpre : sessionidPat.isPrefixOf (a :: (p' ++ rest)) = false := by
      simp [sessionidPat, List.isPrefixOf, hb]
    simp [List.cons_append, findSessionID, hpre,
      ih (fun h => hp (List.mem_cons_of_mem _ h))]

/-- At an occurrence of `sessionid=`, the match succeeds with
whatever the capture yields on the remainder. -/
theorem findSessionID_at_pat (x : List Char) (v : List Char)
    (hcap : findCapture x = some v) :
    findSessionID (sessionidPat ++ x) = some v := by
  rw [show sessionidPat ++ x =
    's' :: 'e' :: 's' :: 's' :: 'i' :: 'o' :: 'n' :: 'i' :: 'd' :: '=' :: x
    from rfl]
  have hpre : sessionidPat.isPrefixOf
      ('s' :: 'e' :: 's' :: 's' :: 'i' :: 'o' :: 'n' :: 'i' :: 'd' :: '=' :: x) =
      true := by
    simp [sessionidPat, List.isPrefixOf]
  have hdrop : List.drop 10
      ('s' :: 'e' :: 's' :: 's' :: 'i' :: 'o' :: 'n' :: 'i' :: 'd' :: '=' :: x) =
      x := rfl
  simp [findSessionID, hpre, hdrop, hcap]

/-- Without an occurrence of the pattern the regex does not match. -/
theorem findSessionID_none (l : List Char)
    (h : containsPat sessionidPat l = false) : findSessionID l = none := by
  induction l with
  | nil => rfl
  | cons c cs ih =>
    rw [containsPat] at h
    rcases Bool.or_eq_false_iff.mp h with ⟨h1, h2⟩
    simp [findSessionID, h1, ih h2]

/-- C6: given response headers whose `Set-Cookie` header contains a
`sessionid` attribute, `extractSessionID` returns its value up to
the next `;` or the end of the header; it fails when the header is
absent (empty) and when the header contains no `sessionid`
attribute. -/
theorem C6_extractSessionID_contract :
    (∀ (res : Response) (p v r : List Char),
      (headerGet res.header "Set-Cookie").data = p ++ sessionidPat ++ v ++ r →
      's' ∉ p → v ≠ [] → '\n' ∉ v → ';' ∉ v →
      (r = [] ∨ ∃ r', r = ';' :: r') →
      extractSessionID res = .ok (String.mk v)) ∧
    (∀ res : Response, headerGet res.header "Set-Cookie" = "" →
      extractSessionID res = .fail .cookieNotFound) ∧
    (∀ res : Response, headerGet res.header "Set-Cookie" ≠ "" →
      containsPat sessionidPat (headerGet res.header "Set-Cookie").data = false →
      extractSessionID res = .fail .sessionIDNotFound) := by
  refine ⟨?_, ?_, ?_⟩
  · intro res p v r hdata hp hv hn hs hr
    have hne : headerGet res.header "Set-Cookie" ≠ "" := by
      intro h
      rw [h] at hdata
      have : ([] : List Char) = p ++ sessionidPat ++ v ++ r := hdata
      simp [List.append_eq_nil, sessionidPat] at this
    have hfind : findSessionID (headerGet res.header "Set-Cookie").data = some v := by
      rw [hdata,
        show p ++ sessionidPat ++ v ++ r = p ++ (sessionidPat ++ (v ++ r)) by
          simp [List.append_assoc],
        findSessionID_skip p _ hp,
        findSessionID_at_pat _ v (findCapture_append v r hv hn hs hr)]
    simp [extractSessionID, hne, hfind]
  · intro res h
    simp [extractSessionID, h]
  · intro res hne hcon
    simp [extractSessionID, hne, findSessionID_none _ hcon]

theorem C6_extractSessionID_contract_witness :
    extractSessionID ⟨none, [("Set-Cookie", "sessionid=abc123; Path=/")]⟩ =
      .ok "abc123" ∧
    extractSessionID ⟨none, []⟩ = .fail .cookieNotFound ∧
    extractSessionID ⟨none, [("Set-Cookie", "foo=bar")]⟩ =
      .fail .sessionIDNotFound :=
  ⟨C6_extractSessionID_contract.1 ⟨none, [("Set-Cookie", "sessionid=abc123; Path=/")]⟩
      [] "abc123".data "; Path=/".data rfl (by decide) (by decide) (by decide)
      (by decide) (Or.inr ⟨" Path=/".data, rfl⟩),
   C6_extractSessionID_contract.2.1 ⟨none, []⟩ rfl,
   C6_extractSessionID_contract.2.2 ⟨none, [("Set-Cookie", "foo=bar")]⟩
      (by decide) (by decide)⟩

/-- C9: every operation that transmits a password — CreateAccount,
LoginWithEmail, LoginWithID, ChangePassword — puts exactly
`hashPassword(password)` in the body's password field, and the
plaintext password is not among the transmitted strings (whenever it
does not coincide with another transmitted string, and it can never
coincide with its own 40-character digest unless it is one). -/
theorem C9_password_never_plaintext :
    (∀ u e p, jsonObjGet (createAccountBody u e p) "password" =
        some (.str (hashPassword p)) ∧
      topStringFields (createAccountBody u e p) = [u, e, hashPassword p]) ∧
    (∀ e p, jsonObjGet (loginWithEmailBody e p) "password" =
        some (.str (hashPassword p)) ∧
      topStringFields (loginWithEmailBody e p) = [e, hashPassword p]) ∧
    (∀ id p, jsonObjGet (loginWithIDBody id p) "password" =
        some (.str (hashPassword p)) ∧
      topStringFields (loginWithIDBody id p) = [hashPassword p]) ∧
    (∀ p, jsonObjGet (changePasswordBody p) "password" =
        some (.str (hashPassword p)) ∧
      topStringFields (changePasswordBody p) = [hashPassword p]) ∧
    (∀ u e p, p ≠ u → p ≠ e → p ≠ hashPassword p →
      p ∉ topStringFields (createAccountBody u e p) ∧
      p ∉ topStringFields (loginWithEmailBody e p) ∧
      (∀ id, p ∉ topStringFields (loginWithIDBody id p)) ∧
      p ∉ topStringFields (changePasswordBody p)) := by
  refine ⟨fun u e p => ⟨rfl, rfl⟩, fun e p => ⟨rfl, rfl⟩,
    fun id p => ⟨rfl, rfl⟩, fun p => ⟨rfl, rfl⟩, ?_⟩
  intro u e p h1 h2 h3
  refine ⟨?_, ?_, fun id => ?_, ?_⟩ <;>
    simp [topStringFields, createAccountBody, loginWithEmailBody,
      loginWithIDBody, changePasswordBody, h1, h2, h3]

theorem C9_password_never_plaintext_witness :
    "pw" ∉ topStringFields (createAccountBody "user" "mail" "pw") ∧
    "pw" ∉ topStringFields (changePasswordBody "pw") := by
  have hlen : ¬ "pw" = hashPassword "pw" := by
    intro h
    have h40 := hashPassword_length "pw"
    rw [← h] at h40
    exact absurd h40 (by decide)
  have main := C9_password_never_plaintext.2.2.2.2 "user" "mail" "pw"
    (by decide) (by decide) hlen
  exact ⟨main.1, main.2.2.2⟩

end Wordfeud
